import Mathlib

/-
  Verification of the document-ingestion pipeline of appartment-agent.

  Shallow embedding of:
  - backend/app/services/ai/document_processor.py
      (_repair_json, _extract_json, classify_document, _process_with_prompt,
       synthesize_results)
  - backend/app/services/documents/bulk_processor.py
      (prepare_pdf, BulkProcessor.process_bulk_upload and its helpers)
  - backend/app/api/documents.py
      (_regenerate_overall_synthesis, get_bulk_processing_status)

  External collaborators (blob store, record store commits, the inference
  service, the PDF library) are modelled as explicit inputs: every call's
  outcome is a parameter, so the embedded functions are total and executable.
-/

/-! ## JSON values (model of parsed Python JSON data) -/

/-- Model of a parsed JSON value (the result of Python's `json.loads`).
Numbers are modelled as exact rationals. -/
inductive Json where
  | null : Json
  | bool (b : Bool) : Json
  | num (q : Rat) : Json
  | str (s : String) : Json
  | arr (elems : List Json) : Json
  | obj (fields : List (String × Json)) : Json

/-- Left brace character, written via its code point. -/
def lbraceChar : Char := Char.ofNat 123

/-- Right brace character, written via its code point. -/
def rbraceChar : Char := Char.ofNat 125

/-- Backtick character, written via its code point. -/
def backtickChar : Char := Char.ofNat 96

/-- Python's `\s` / `str.strip` whitespace class: space, tab, newline,
carriage return, vertical tab, form feed. -/
def isPySpace (c : Char) : Bool :=
  c = ' ' || c = '\t' || c = '\n' || c = Char.ofNat 13 || c = Char.ofNat 11 || c = Char.ofNat 12

/-- Drop trailing characters satisfying `p` (used for right-stripping). -/
def dropTrailing (p : Char → Bool) (cs : List Char) : List Char :=
  (cs.reverse.dropWhile p).reverse

/-- Model of Python `str.strip()`. -/
def pyStrip (s : String) : String :=
  String.mk (dropTrailing isPySpace (s.data.dropWhile isPySpace))

/-- Model of Python `str.lower()` (ASCII case mapping). -/
def pyLower (s : String) : String :=
  String.mk (s.data.map Char.toLower)

/-- Count occurrences of a character in a character list. -/
def countChar (c : Char) (cs : List Char) : Nat :=
  (cs.filter (· = c)).length

/-! ## _repair_json (document_processor.py lines 24-48) -/

/-- The unterminated-string scan of `_repair_json`: walk the characters,
toggling `in_string` at every `"` whose previous character is not a
backslash (the source checks only the single previous character). -/
def scanInString : Bool → Option Char → List Char → Bool
  | inStr, _, [] => inStr
  | inStr, prev, c :: rest =>
    if c = '\"' ∧ prev ≠ some '\\' then scanInString (!inStr) (some c) rest
    else scanInString inStr (some c) rest

/-- Model of `re.sub(r",\s*$", "", s)`: remove one trailing comma together
with the trailing whitespace after it (a match exists exactly when the
right-stripped string ends in a comma). -/
def removeTrailingCommaEnd (cs : List Char) : List Char :=
  let t := dropTrailing isPySpace cs
  match t.getLast? with
  | some ',' => t.dropLast
  | _ => cs

/-- Model of `_repair_json`: count brace/bracket imbalance, close an open
string indicated by an odd number of unescaped quotes, strip one trailing
comma, then append the missing `]`/`}` characters (a negative imbalance
appends nothing, as Python's negative string repetition does). -/
def repairJson (s : String) : String :=
  let cs := s.data
  let openBraces : Int := (countChar lbraceChar cs : Int) - (countChar rbraceChar cs : Int)
  let openBrackets : Int := (countChar '[' cs : Int) - (countChar ']' cs : Int)
  let inString := scanInString false none cs
  let cs1 := if inString then cs ++ ['\"'] else cs
  let cs2 := removeTrailingCommaEnd cs1
  String.mk (cs2 ++ List.replicate openBrackets.toNat ']'
                 ++ List.replicate openBraces.toNat rbraceChar)

/-! ## _extract_json (document_processor.py lines 51-75) -/

/-- Does the character list contain three consecutive backticks?
Models Python's `"```" in response_text`. -/
def hasTripleBacktick : List Char → Bool
  | a :: b :: c :: rest =>
    (a = backtickChar && b = backtickChar && c = backtickChar) || hasTripleBacktick (b :: c :: rest)
  | _ => false

/-- Drop a literal `json` prefix if present (the optional group of the
fence-removal regex). -/
def dropJsonWord : List Char → List Char
  | 'j' :: 's' :: 'o' :: 'n' :: rest => rest
  | cs => cs

/-- Model of `re.sub(r"```(?:json)?\s*", "", s)`: left-to-right scan removing
each run of three backticks, an optional `json`, and following whitespace. -/
def stripFences : Nat → List Char → List Char
  | 0, cs => cs
  | fuel + 1, cs =>
    match cs with
    | [] => []
    | c :: rest =>
      if c = backtickChar then
        match rest with
        | c2 :: c3 :: rest2 =>
          if c2 = backtickChar ∧ c3 = backtickChar then
            stripFences fuel ((dropJsonWord rest2).dropWhile isPySpace)
          else c :: stripFences fuel rest
        | _ => c :: stripFences fuel rest
      else c :: stripFences fuel rest

/-- Matcher for `\s*(\d+),(\d+\.?\d*)` (the tail of the first number-format
regex, applied after a `:`). Returns the two captured groups and the rest. -/
def matchCommaNum1 (cs : List Char) : Option (List Char × List Char × List Char) :=
  let afterWs := cs.dropWhile isPySpace
  let d1 := afterWs.takeWhile Char.isDigit
  if d1.isEmpty then none else
  match afterWs.drop d1.length with
  | ',' :: rest2 =>
    let d2 := rest2.takeWhile Char.isDigit
    if d2.isEmpty then none else
    match rest2.drop d2.length with
    | '.' :: rest3 =>
      let d3 := rest3.takeWhile Char.isDigit
      some (d1, d2 ++ '.' :: d3, rest3.drop d3.length)
    | after2 => some (d1, d2, after2)
  | _ => none

/-- Model of `re.sub(r":\s*(\d+),(\d+\.?\d*)", r": \1\2", s)`. -/
def fixCommaNum1 : Nat → List Char → List Char
  | 0, cs => cs
  | fuel + 1, cs =>
    match cs with
    | [] => []
    | c :: rest =>
      if c = ':' then
        match matchCommaNum1 rest with
        | some (d1, d2, rest') => ':' :: ' ' :: (d1 ++ d2 ++ fixCommaNum1 fuel rest')
        | none => c :: fixCommaNum1 fuel rest
      else c :: fixCommaNum1 fuel rest

/-- Matcher for `\s*(\d+),(\d+),(\d+\.?\d*)` (tail of the second
number-format regex). -/
def matchCommaNum2 (cs : List Char) : Option (List Char × List Char × List Char × List Char) :=
  let afterWs := cs.dropWhile isPySpace
  let d1 := afterWs.takeWhile Char.isDigit
  if d1.isEmpty then none else
  match afterWs.drop d1.length with
  | ',' :: rest2 =>
    let d2 := rest2.takeWhile Char.isDigit
    if d2.isEmpty then none else
    match rest2.drop d2.length with
    | ',' :: rest3 =>
      let d3 := rest3.takeWhile Char.isDigit
      if d3.isEmpty then none else
      match rest3.drop d3.length with
      | '.' :: rest4 =>
        let d4 := rest4.takeWhile Char.isDigit
        some (d1, d2, d3 ++ '.' :: d4, rest4.drop d4.length)
      | after3 => some (d1, d2, d3, after3)
    | _ => none
  | _ => none

/-- Model of `re.sub(r":\s*(\d+),(\d+),(\d+\.?\d*)", r": \1\2\3", s)`. -/
def fixCommaNum2 : Nat → List Char → List Char
  | 0, cs => cs
  | fuel + 1, cs =>
    match cs with
    | [] => []
    | c :: rest =>
      if c = ':' then
        match matchCommaNum2 rest with
        | some (d1, d2, d3, rest') => ':' :: ' ' :: (d1 ++ d2 ++ d3 ++ fixCommaNum2 fuel rest')
        | none => c :: fixCommaNum2 fuel rest
      else c :: fixCommaNum2 fuel rest

/-- Model of `re.sub(r",(\s*[}\]])", r"\1", s)`: drop a comma standing
before whitespace and a closing brace/bracket; scanning resumes after the
bracket. -/
def fixTrailingCommas : Nat → List Char → List Char
  | 0, cs => cs
  | fuel + 1, cs =>
    match cs with
    | [] => []
    | c :: rest =>
      if c = ',' then
        let ws := rest.takeWhile isPySpace
        match rest.drop ws.length with
        | b :: rest2 =>
          if b = rbraceChar ∨ b = ']' then ws ++ b :: fixTrailingCommas fuel rest2
          else c :: fixTrailingCommas fuel rest
        | [] => c :: fixTrailingCommas fuel rest
      else c :: fixTrailingCommas fuel rest

/-- Model of `_extract_json`: trim leading prose up to the first `{`/`[`,
strip markdown fences, merge thousand-separated numeric literals, drop
trailing commas before closing brackets, then strip and repair. -/
def extractJson (s : String) : String :=
  let cs := s.data
  let idxBrace := ((cs.findIdx? (· = lbraceChar)).getD cs.length)
  let idxBracket := ((cs.findIdx? (· = '[')).getD cs.length)
  let jsonStart := min idxBrace idxBracket
  let cs1 := if jsonStart > 0 then cs.drop jsonStart else cs
  let cs2 := if hasTripleBacktick cs1 then stripFences cs1.length cs1 else cs1
  let cs3 := fixCommaNum1 cs2.length cs2
  let cs4 := fixCommaNum2 cs3.length cs3
  let cs5 := fixTrailingCommas cs4.length cs4
  repairJson (pyStrip (String.mk cs5))

/-! ## Model of Python's `json.loads`

A recursive-descent parser over the JSON subset exercised by the pipeline
(objects, arrays, strings with escapes, integer/decimal numbers, booleans,
null). Duplicate object keys follow Python dict semantics: the later value
overwrites, the original position is kept. -/

/-- Value of a hexadecimal digit. -/
def hexVal (c : Char) : Option Nat :=
  if c.isDigit then some (c.toNat - 48)
  else if 'a' ≤ c ∧ c ≤ 'f' then some (c.toNat - 87)
  else if 'A' ≤ c ∧ c ≤ 'F' then some (c.toNat - 55)
  else none

/-- Decimal value of a digit string. -/
def digitsToNat (ds : List Char) : Nat :=
  ds.foldl (fun n c => n * 10 + (c.toNat - 48)) 0

/-- Rational from sign, integer part and fractional digits. -/
def ratOfParts (neg : Bool) (ip : Nat) (fracDs : List Char) : Rat :=
  let k := fracDs.length
  let n : Int := (ip * 10 ^ k + digitsToNat fracDs : Nat)
  mkRat (if neg then -n else n) (10 ^ k)

/-- Python-dict assignment on an association list: replace the value at an
existing key in place, otherwise append at the end. -/
def dictSet (fields : List (String × Json)) (k : String) (v : Json) : List (String × Json) :=
  if (fields.find? (fun p => p.1 == k)).isSome then
    fields.map (fun p => if p.1 == k then (p.1, v) else p)
  else fields ++ [(k, v)]

/-- Parse the body of a JSON string (after the opening quote), decoding
escapes; returns the characters and the remaining input. -/
def parseStringChars : List Char → Option (List Char × List Char)
  | [] => none
  | c :: rest =>
    if c = '\"' then some ([], rest)
    else if c = '\\' then
      match rest with
      | [] => none
      | e :: rest2 =>
        if e = 'u' then
          match rest2 with
          | h1 :: h2 :: h3 :: h4 :: rest3 =>
            match hexVal h1, hexVal h2, hexVal h3, hexVal h4 with
            | some a, some b, some c2, some d =>
              (parseStringChars rest3).map
                (fun p => (Char.ofNat (((a * 16 + b) * 16 + c2) * 16 + d) :: p.1, p.2))
            | _, _, _, _ => none
          | _ => none
        else
          let decoded :=
            if e = 'n' then '\n'
            else if e = 't' then '\t'
            else if e = 'r' then Char.ofNat 13
            else if e = 'b' then Char.ofNat 8
            else if e = 'f' then Char.ofNat 12
            else e
          (parseStringChars rest2).map (fun p => (decoded :: p.1, p.2))
    else (parseStringChars rest).map (fun p => (c :: p.1, p.2))

/-- Parse a JSON number starting at the current position. -/
def parseNumberChars (cs : List Char) : Option (Json × List Char) :=
  let neg := cs.head? = some '-'
  let cs1 := if neg then cs.drop 1 else cs
  let d1 := cs1.takeWhile Char.isDigit
  if d1.isEmpty then none else
  match cs1.drop d1.length with
  | '.' :: rest2 =>
    let d2 := rest2.takeWhile Char.isDigit
    if d2.isEmpty then none
    else some (Json.num (ratOfParts neg (digitsToNat d1) d2), rest2.drop d2.length)
  | rest1 => some (Json.num (ratOfParts neg (digitsToNat d1) []), rest1)

mutual

/-- Parse one JSON value (fuel-bounded recursion). -/
def parseVal : Nat → List Char → Option (Json × List Char)
  | 0, _ => none
  | fuel + 1, cs =>
    match cs.dropWhile isPySpace with
    | [] => none
    | c :: rest =>
      if c = lbraceChar then
        match rest.dropWhile isPySpace with
        | c2 :: rest2 =>
          if c2 = rbraceChar then some (Json.obj [], rest2)
          else
            (parseFieldList fuel rest).map
              (fun p => (Json.obj (p.1.foldl (fun acc kv => dictSet acc kv.1 kv.2) []), p.2))
        | [] => none
      else if c = '[' then
        match rest.dropWhile isPySpace with
        | c2 :: rest2 =>
          if c2 = ']' then some (Json.arr [], rest2)
          else (parseElems fuel rest).map (fun p => (Json.arr p.1, p.2))
        | [] => none
      else if c = '\"' then
        (parseStringChars rest).map (fun p => (Json.str (String.mk p.1), p.2))
      else if c = 't' then
        match rest with
        | 'r' :: 'u' :: 'e' :: rest2 => some (Json.bool true, rest2)
        | _ => none
      else if c = 'f' then
        match rest with
        | 'a' :: 'l' :: 's' :: 'e' :: rest2 => some (Json.bool false, rest2)
        | _ => none
      else if c = 'n' then
        match rest with
        | 'u' :: 'l' :: 'l' :: rest2 => some (Json.null, rest2)
        | _ => none
      else parseNumberChars (c :: rest)

/-- Parse one or more comma-separated array elements up to `]`. -/
def parseElems : Nat → List Char → Option (List Json × List Char)
  | 0, _ => none
  | fuel + 1, cs =>
    match parseVal fuel cs with
    | none => none
    | some (v, cs1) =>
      match cs1.dropWhile isPySpace with
      | ',' :: cs2 =>
        (parseElems fuel cs2).map (fun p => (v :: p.1, p.2))
      | ']' :: cs2 => some ([v], cs2)
      | _ => none

/-- Parse one or more `"key": value` members up to the closing brace. -/
def parseFieldList : Nat → List Char → Option (List (String × Json) × List Char)
  | 0, _ => none
  | fuel + 1, cs =>
    match cs.dropWhile isPySpace with
    | c :: rest =>
      if c = '\"' then
        match parseStringChars rest with
        | none => none
        | some (key, cs1) =>
          match cs1.dropWhile isPySpace with
          | ':' :: cs2 =>
            match parseVal fuel cs2 with
            | none => none
            | some (v, cs3) =>
              match cs3.dropWhile isPySpace with
              | ',' :: cs4 =>
                (parseFieldList fuel cs4).map (fun p => ((String.mk key, v) :: p.1, p.2))
              | c5 :: cs5 =>
                if c5 = rbraceChar then some ([(String.mk key, v)], cs5) else none
              | [] => none
          | _ => none
      else none
    | [] => none

end

/-- Model of `json.loads`: parse a complete JSON document, requiring that
only whitespace remains; `none` models a raised `JSONDecodeError`. -/
def jsonLoads (s : String) : Option Json :=
  match parseVal (s.length + 8) s.data with
  | some (j, rest) => if (rest.dropWhile isPySpace).isEmpty then some j else none
  | none => none

/-! ## classify_document (document_processor.py lines 162-205)

The Gemini call is an external collaborator: its outcome (a transport
error or the extracted raw response text) is an explicit input. -/

/-- The closed set accepted by the classifier (`valid` in the source). -/
def classifyValid : List String :=
  ["pv_ag", "diagnostic", "diags", "taxe_fonciere", "charges", "other"]

/-- Model of `DocumentProcessor.classify_document`. An empty `pdf_data`
(Python falsy) and any transport error both yield `other`; an answer
outside the closed set maps to `other`; `diagnostic` is renamed `diags`. -/
def classify_document (filename : String) (pdfData : List Nat)
    (resp : Except String String) : String :=
  let _ := filename
  if pdfData.isEmpty then "other"
  else
    match resp with
    | .error _ => "other"
    | .ok raw =>
      let category := pyLower (pyStrip raw)
      if classifyValid.contains category then
        if category = "diagnostic" then "diags" else category
      else "other"

/-! ## _process_with_prompt (document_processor.py lines 207-249) -/

/-- The safe fallback object returned when extraction fails
(`_process_with_prompt`'s except branch; `0.0` is the rational `0`). -/
def processingFallback (filename : String) : Json :=
  Json.obj [("summary", Json.str ("Error processing " ++ filename)),
            ("key_insights", Json.arr []),
            ("estimated_annual_cost", Json.num 0),
            ("one_time_costs", Json.num 0)]

/-- Model of `DocumentProcessor._process_with_prompt`: on a transport
error, an empty extracted-JSON text, or JSON that still fails to parse
after a second `_repair_json` pass, return the safe fallback object. -/
def processWithPrompt (filename : String) (resp : Except String String) : Json :=
  match resp with
  | .error _ => processingFallback filename
  | .ok raw =>
    let responseText := extractJson raw
    if responseText = "" then processingFallback filename
    else
      match jsonLoads responseText with
      | some j => j
      | none =>
        match jsonLoads (repairJson responseText) with
        | some j => j
        | none => processingFallback filename

/-! ## synthesize_results (document_processor.py lines 334-395) -/

/-- Per-document entry of the synthesis request (filename, classified type
and full structured extraction — the data enumerated in the combined
prompt, together with the document id carried through the pipeline). -/
structure ResultEntry where
  filename : String
  document_type : String
  result : Json
  document_id : Nat

/-- The degraded synthesis object returned when the synthesis call fails. -/
def synthesisFallback : Json :=
  Json.obj [("summary", Json.str "Documents processed. Synthesis unavailable."),
            ("total_annual_costs", Json.num 0),
            ("total_one_time_costs", Json.num 0),
            ("risk_level", Json.str "unknown"),
            ("key_findings", Json.arr [Json.str "All documents processed"]),
            ("recommendations", Json.arr [Json.str "Review individual documents"]),
            ("confidence_score", Json.num 0),
            ("confidence_reasoning", Json.str "Synthesis failed — review individual documents.")]

/-- Model of `DocumentProcessor.synthesize_results`: the prompt enumerates
`results`; the call's outcome is the input `resp`. A transport error or an
unparseable cleaned response yields the degraded fallback object. -/
def synthesize_results (results : List ResultEntry) (resp : Except String String) : Json :=
  let _ := results
  match resp with
  | .error _ => synthesisFallback
  | .ok raw =>
    match jsonLoads (extractJson raw) with
    | some j => j
    | none => synthesisFallback

/-! ## prepare_pdf (bulk_processor.py lines 26-65) -/

/-- Outcome of the PyMuPDF parse of the raw bytes: failure (any exception)
or the per-page extracted texts. -/
inductive PdfParse where
  | failure : PdfParse
  | pages (texts : List String) : PdfParse

/-- The record returned by `prepare_pdf`. -/
structure Prepared where
  pdf_data : List Nat
  text_extractable : Bool
  extracted_text : String
  page_count : Nat

/-- Model of `prepare_pdf`: join the pages whose stripped text is nonempty
with blank lines, set `text_extractable` when more than 500 characters were
extracted, and fall back to an empty record on any parse failure. -/
def prepare_pdf (pdfParse : List Nat → PdfParse) (pdf_bytes : List Nat) : Prepared :=
  match pdfParse pdf_bytes with
  | .failure =>
    { pdf_data := pdf_bytes, text_extractable := false, extracted_text := "", page_count := 0 }
  | .pages texts =>
    let text_parts := texts.filter (fun t => pyStrip t ≠ "")
    let extracted_text := String.intercalate "\n\n" text_parts
    let text_extractable := decide (500 < extracted_text.length)
    { pdf_data := pdf_bytes,
      text_extractable := text_extractable,
      extracted_text := if text_extractable then extracted_text else "",
      page_count := texts.length }

/-- The text `prepare_pdf` extracts before the length test (spec-side
vocabulary for stating the `text_extractable` property). -/
def extractedTextOf (pdfParse : List Nat → PdfParse) (pdf_bytes : List Nat) : String :=
  match pdfParse pdf_bytes with
  | .failure => ""
  | .pages texts => String.intercalate "\n\n" (texts.filter (fun t => pyStrip t ≠ ""))

/-! ## Record-store model (models/document.py rows, narrowed to the fields
the pipeline reads or writes) -/

/-- A `Document` row. -/
structure DocRow where
  id : Nat
  property_id : Nat
  user_id : Option Nat
  filename : String
  processing_status : String
  processing_error : Option String
  is_analyzed : Bool
  document_category : String
  document_subcategory : Json
  analysis_summary : Json
  key_insights : Json
  estimated_annual_cost : Json
  one_time_costs : Json
  extracted_data : Option Json

/-- A `DocumentSummary` row (the synthesis table); `category = none` is the
overall synthesis. `synthesis_data` is the text column, modelled parsed
(`none` = NULL). -/
structure SummaryRow where
  property_id : Nat
  category : Option String
  overall_summary : Json
  total_annual_cost : Json
  total_one_time_cost : Json
  risk_level : Json
  key_findings : Json
  recommendations : Json
  synthesis_data : Option Json

/-- A `User` row (only the counter the pipeline touches). -/
structure UserRow where
  id : Nat
  documents_analyzed_count : Option Nat

/-- The record store. -/
structure DbState where
  docs : List DocRow
  summaries : List SummaryRow
  users : List UserRow

/-- Update the first row matching an id (SQLAlchemy `.filter(...).first()`
followed by attribute assignment; missing rows are left alone). -/
def updateFirstDoc (ds : List DocRow) (i : Nat) (f : DocRow → DocRow) : List DocRow :=
  match ds with
  | [] => []
  | d :: rest => if d.id == i then f d :: rest else d :: updateFirstDoc rest i f

/-- Look up a document row by id (`.first()`). -/
def findDoc (st : DbState) (i : Nat) : Option DocRow :=
  st.docs.find? (fun d => d.id == i)

/-- Processing status of a document, when the row exists. -/
def statusOf (st : DbState) (i : Nat) : Option String :=
  (findDoc st i).map (fun d => d.processing_status)

/-- Processing error of a document, when the row exists. -/
def errorOf (st : DbState) (i : Nat) : Option (Option String) :=
  (findDoc st i).map (fun d => d.processing_error)

/-- Look up the overall synthesis row of a property
(`DocumentSummary.property_id == pid, DocumentSummary.category == None`). -/
def findSummary (st : DbState) (pid : Nat) : Option SummaryRow :=
  st.summaries.find? (fun s => s.property_id == pid && s.category == none)

/-- Replace the first overall synthesis row of a property. -/
def replaceFirstSummary (ss : List SummaryRow) (pid : Nat) (row : SummaryRow) : List SummaryRow :=
  match ss with
  | [] => []
  | s :: rest =>
    if s.property_id == pid && s.category == none then row :: rest
    else s :: replaceFirstSummary rest pid row

/-- Delete the first overall synthesis row of a property (`db.delete`). -/
def deleteFirstSummary (ss : List SummaryRow) (pid : Nat) : List SummaryRow :=
  match ss with
  | [] => []
  | s :: rest =>
    if s.property_id == pid && s.category == none then rest
    else s :: deleteFirstSummary rest pid

/-- Increment `documents_analyzed_count` (None counts as 0) of the first
matching user. -/
def incUserCount (us : List UserRow) (uid : Nat) : List UserRow :=
  match us with
  | [] => []
  | u :: rest =>
    if u.id == uid then
      { u with documents_analyzed_count := some ((u.documents_analyzed_count.getD 0) + 1) } :: rest
    else u :: incUserCount rest uid

/-! ## Bulk processor (bulk_processor.py, BulkProcessor) -/

/-- An entry of `document_uploads`. -/
structure Upload where
  document_id : Nat
  storage_key : String
  filename : String

/-- External outcomes of one bulk run: the blob store's answer per key, the
PDF parse, the model's raw answer per member index for classification and
extraction, the synthesis call's answer, and whether the record store's
commit inside `_save_synthesis` raises. -/
structure BulkEnv where
  download : String → Except String (List Nat)
  pdfParse : List Nat → PdfParse
  classifyResp : Nat → Except String String
  extractResp : Nat → Except String String
  synthesisResp : Except String String
  synthesisCommitError : Option String

/-- Mark every member document `processing` (step before the try-body's
download; missing rows are skipped, matching `if doc:`). -/
def markProcessing (uploads : List Upload) (st : DbState) : DbState :=
  { st with docs := (uploads.foldl
      (fun ds u => updateFirstDoc ds u.document_id
        (fun d => { d with processing_status := "processing" })) st.docs) }

/-- The coordinator-level failure handler (`except Exception` of
`process_bulk_upload`): mark every member document `failed` and store the
error text. -/
def markFailed (uploads : List Upload) (e : String) (st : DbState) : DbState :=
  { st with docs := (uploads.foldl
      (fun ds u => updateFirstDoc ds u.document_id
        (fun d => { d with processing_status := "failed", processing_error := some e })) st.docs) }

/-- Model of `_download_files`: `asyncio.gather` of one download per member;
without `return_exceptions` a failing member propagates its exception to the
whole step (determinized to the first failing index). -/
def downloadFiles (download : String → Except String (List Nat)) :
    List Upload → Except String (List (List Nat))
  | [] => .ok []
  | u :: us =>
    match download u.storage_key with
    | .error e => .error e
    | .ok b => (downloadFiles download us).map (fun bs => b :: bs)

/-- Model of `process_document` for one member: classify, then run the
category-specific extraction prompt (every category's processor delegates
to `_process_with_prompt`, so the category affects only `document_type`). -/
def processDocument (classifyResp extractResp : Except String String)
    (u : Upload) (prep : Prepared) : ResultEntry :=
  { filename := u.filename,
    document_type := classify_document u.filename prep.pdf_data classifyResp,
    result := processWithPrompt u.filename extractResp,
    document_id := u.document_id }

/-- Build the per-member results in order, indexing the model's answers by
member position (the `enumerate` of the task list). -/
def buildResults (env : BulkEnv) : Nat → List (Upload × Prepared) → List ResultEntry
  | _, [] => []
  | i, (u, p) :: rest =>
    processDocument (env.classifyResp i) (env.extractResp i) u p :: buildResults env (i + 1) rest

/-- Python truthiness of a JSON value (`x or default`). -/
def jTruthy : Json → Bool
  | Json.null => false
  | Json.bool b => b
  | Json.num q => q ≠ 0
  | Json.str s => s ≠ ""
  | Json.arr es => ¬es.isEmpty
  | Json.obj fs => ¬fs.isEmpty

/-- Python `dict.get(key, default)` on an object's fields. -/
def jGet (j : Json) (key : String) (dflt : Json) : Json :=
  match j with
  | Json.obj fields => ((fields.find? (fun p => p.1 == key)).map (fun p => p.2)).getD dflt
  | _ => dflt

/-- The per-row assignments of `_save_document_result`: analysis fields are
written from the result and the status becomes `completed`. -/
def saveDocSetter (r : ResultEntry) (d : DocRow) : DocRow :=
  let analysis := r.result
  let one_time := jGet analysis "one_time_costs" (Json.num 0)
  let one_time_costs :=
    match one_time with
    | Json.num n =>
      if 0 < n then
        Json.arr [Json.obj [("amount", Json.num n), ("description", Json.str "Total")]]
      else Json.arr []
    | other => other
  { d with
    document_category := r.document_type,
    document_subcategory := jGet analysis "subcategory" Json.null,
    is_analyzed := true,
    analysis_summary := jGet analysis "summary" Json.null,
    key_insights := jGet analysis "key_insights" (Json.arr []),
    estimated_annual_cost := jGet analysis "estimated_annual_cost" (Json.num 0),
    one_time_costs := one_time_costs,
    processing_status := "completed" }

/-- Model of `_save_document_result`: a falsy (`0`) or missing document id
returns early; otherwise the row's analysis fields are written, the status
becomes `completed`, and the owner's analyzed counter is incremented. -/
def saveDocumentResult (st : DbState) (r : ResultEntry) : DbState :=
  if r.document_id = 0 then st
  else
    match findDoc st r.document_id with
    | none => st
    | some doc0 =>
      let st1 := { st with docs := updateFirstDoc st.docs r.document_id (saveDocSetter r) }
      match doc0.user_id with
      | some uid => { st1 with users := incUserCount st1.users uid }
      | none => st1

/-- Run the incremental saves in order, recording the state after each
per-document commit. -/
def runSaves : DbState → List ResultEntry → List DbState
  | _, [] => []
  | st, r :: rs =>
    let st' := saveDocumentResult st r
    st' :: runSaves st' rs

/-! ## _save_synthesis (bulk_processor.py lines 218-252) and the identical
persist block of _regenerate_overall_synthesis (documents.py lines 128-154) -/

/-- A fresh `DocumentSummary(property_id=pid)` row (all payload columns
NULL before assignment). -/
def newSummaryRow (pid : Nat) : SummaryRow :=
  { property_id := pid, category := none, overall_summary := Json.null,
    total_annual_cost := Json.null, total_one_time_cost := Json.null,
    risk_level := Json.null, key_findings := Json.null,
    recommendations := Json.null, synthesis_data := none }

/-- Top-level fields of the synthesis value when it is a JSON object; the
`.get` calls on a non-object raise before anything is persisted, so callers
treat `none` as an exception. -/
def synthesisFields : Json → Option (List (String × Json))
  | Json.obj fs => some fs
  | _ => none

/-- The assignment block shared verbatim by `_save_synthesis` and
`_regenerate_overall_synthesis`: copy the scalar fields out of the new
synthesis object, carry `user_overrides` forward from the old
`synthesis_data` when it is a JSON object holding that key, and store the
resulting object as the new `synthesis_data`. -/
def applySynthesisRow (row : SummaryRow) (sfields : List (String × Json)) : SummaryRow :=
  let s := Json.obj sfields
  let sfields' :=
    match row.synthesis_data with
    | some (Json.obj old) =>
      match (old.find? (fun p => p.1 == "user_overrides")).map (fun p => p.2) with
      | some v => dictSet sfields "user_overrides" v
      | none => sfields
    | _ => sfields
  { row with
    overall_summary := jGet s "summary" (Json.str ""),
    total_annual_cost := jGet s "total_annual_costs" (Json.num 0),
    total_one_time_cost := jGet s "total_one_time_costs" (Json.num 0),
    risk_level := jGet s "risk_level" (Json.str "unknown"),
    key_findings := jGet s "key_findings" (Json.arr []),
    recommendations := jGet s "recommendations" (Json.arr []),
    synthesis_data := some (Json.obj sfields') }

/-- Model of `_save_synthesis`: update the overall synthesis row of the
property, creating it first when absent. -/
def saveSynthesis (st : DbState) (sfields : List (String × Json)) (pid : Nat) : DbState :=
  match findSummary st pid with
  | some row =>
    { st with summaries := replaceFirstSummary st.summaries pid (applySynthesisRow row sfields) }
  | none =>
    { st with summaries := st.summaries ++ [applySynthesisRow (newSummaryRow pid) sfields] }

/-! ## process_bulk_upload (bulk_processor.py lines 83-157) -/

/-- Observable outcome of one bulk run: the record-store state after each
commit (head = initial state), the final state, the list of documents the
synthesis request enumerated (when the run reached synthesis), and the
error captured by the coordinator-level except handler, if any. -/
structure BulkRun where
  trace : List DbState
  final : DbState
  synthesisInput : Option (List ResultEntry)
  batchError : Option String

/-- Model of `BulkProcessor.process_bulk_upload`. Sequencing: mark every
member `processing` and commit; download all blobs (a single failing
download aborts the batch); prepare every PDF; classify+extract each member
and commit each result as it completes (determinized to member order);
synthesize once from the batch's results; persist the synthesis. Any
exception in the try-body (modelled failure points: a failed download, a
non-object synthesis value, a record-store error at the synthesis commit)
reaches the except handler, which marks every member `failed` with the
captured error text. -/
def process_bulk_upload (env : BulkEnv) (property_id : Nat) (uploads : List Upload)
    (st0 : DbState) : BulkRun :=
  let st1 := markProcessing uploads st0
  match downloadFiles env.download uploads with
  | .error e =>
    let stF := markFailed uploads e st1
    { trace := [st0, st1, stF], final := stF, synthesisInput := none, batchError := some e }
  | .ok files =>
    let prepared := files.map (prepare_pdf env.pdfParse)
    let results := buildResults env 0 (uploads.zip prepared)
    let saveStates := runSaves st1 results
    let st2 := saveStates.getLastD st1
    let outcome : DbState × Option String :=
      match env.synthesisCommitError with
      | some e => (markFailed uploads e st2, some e)
      | none =>
        match synthesisFields (synthesize_results results env.synthesisResp) with
        | some sfields => (saveSynthesis st2 sfields property_id, none)
        | none =>
          (markFailed uploads "synthesis result is not a JSON object" st2,
           some "synthesis result is not a JSON object")
    { trace := st0 :: st1 :: saveStates ++ [outcome.1], final := outcome.1,
      synthesisInput := some results, batchError := outcome.2 }

/-! ## _regenerate_overall_synthesis (documents.py lines 62-161) -/

/-- Build one result entry from a stored analyzed document (`x or default`
follows Python truthiness; `extracted_data` is included when present). -/
def buildRegenResult (d : DocRow) : ResultEntry :=
  let base : List (String × Json) :=
    [("summary", if jTruthy d.analysis_summary then d.analysis_summary else Json.str ""),
     ("key_insights", if jTruthy d.key_insights then d.key_insights else Json.arr []),
     ("estimated_annual_cost",
       if jTruthy d.estimated_annual_cost then d.estimated_annual_cost else Json.num 0),
     ("one_time_costs", if jTruthy d.one_time_costs then d.one_time_costs else Json.arr [])]
  let withExtracted :=
    match d.extracted_data with
    | some j => base ++ [("extracted_data", j)]
    | none => base
  { filename := d.filename, document_type := d.document_category,
    result := Json.obj withExtracted, document_id := d.id }

/-- Model of `_regenerate_overall_synthesis`: collect every analyzed
document of the property; with none, delete any existing overall synthesis
row and stop; otherwise synthesize from all of them and persist, carrying
`user_overrides` forward. Its try/except swallows every error, so a
non-object synthesis value leaves the store untouched. -/
def regenerateOverallSynthesis (synthesisResp : Except String String) (pid : Nat)
    (st : DbState) : DbState :=
  let analyzed := st.docs.filter (fun d => d.property_id == pid && d.is_analyzed)
  if analyzed.isEmpty then
    match findSummary st pid with
    | some _ => { st with summaries := deleteFirstSummary st.summaries pid }
    | none => st
  else
    let results := analyzed.map buildRegenResult
    let synthesis := synthesize_results results synthesisResp
    match synthesisFields synthesis with
    | some sfields => saveSynthesis st sfields pid
    | none => st

/-! ## get_bulk_processing_status (documents.py lines 1450-1553) -/

/-- Aggregate batch status derived from the member statuses (the if-chain
of `get_bulk_processing_status`). -/
def overallStatus (statuses : List String) : String :=
  let total := statuses.length
  let completed := (statuses.filter (fun s => s == "completed")).length
  let failed := (statuses.filter (fun s => s == "failed")).length
  let processing := (statuses.filter (fun s => s == "processing")).length
  let pending := (statuses.filter (fun s => s == "pending")).length
  if completed = total then "completed"
  else if failed = total then "failed"
  else if 0 < processing ∨ 0 < pending then "processing"
  else "unknown"

/-! ### Binary64 model for the progress percentage

The source computes `int((completed / total) * 100)` in Python binary64
floating point. Both operations (`int / int` true division, `float * int`
product) produce the correctly rounded binary64 result, modelled here as
exact rationals rounded to a 53-bit significand with round-to-nearest,
ties-to-even. The values involved lie in `[1/50, 100]`, far from the
overflow and subnormal ranges, so neither is modelled. -/

/-- Fuel-driven binary logarithm (`Nat.log2` does not reduce in proofs). -/
def natLog2Fuel : Nat → Nat → Nat
  | 0, _ => 0
  | fuel + 1, n => if n < 2 then 0 else natLog2Fuel fuel (n / 2) + 1

/-- Floor of the binary logarithm of a positive natural. -/
def natLog2 (n : Nat) : Nat := natLog2Fuel n n

/-- Floor of the binary logarithm of the positive rational `a / b`. -/
def floorLog2Q (a b : Nat) : Int :=
  let la : Int := (natLog2 a : Int)
  let lb : Int := (natLog2 b : Int)
  let ok : Bool :=
    if lb ≤ la then b * 2 ^ (la - lb).toNat ≤ a
    else b ≤ a * 2 ^ (lb - la).toNat
  if ok then la - lb else la - lb - 1

/-- Round `n / d` to the nearest integer, ties to even. -/
def roundHalfEven (n d : Nat) : Nat :=
  let q := n / d
  let r := n % d
  if 2 * r < d then q
  else if d < 2 * r then q + 1
  else if q % 2 = 0 then q else q + 1

/-- Round a nonnegative rational to the nearest binary64 value: scale into
`[2^52, 2^53)`, round the significand to the nearest integer (ties to
even), and scale back. -/
def fl (q : Rat) : Rat :=
  if q ≤ 0 then 0
  else
    let a := q.num.toNat
    let b := q.den
    let e : Int := floorLog2Q a b - 52
    if 0 ≤ e then mkRat ((roundHalfEven a (b * 2 ^ e.toNat) * 2 ^ e.toNat : Nat) : Int) 1
    else mkRat ((roundHalfEven (a * 2 ^ (-e).toNat) b : Nat) : Int) (2 ^ (-e).toNat)

/-- Python's `completed / total` on ints: the correctly rounded binary64
quotient. -/
def floatDivNat (c t : Nat) : Rat := fl (mkRat (c : Int) t)

/-- Python's `x * 100` on a float: the correctly rounded binary64 product
(the exact product `x * 100` rounded). -/
def floatMul100 (x : Rat) : Rat := fl (mkRat (x.num * 100) x.den)

/-- Python's `int(x)`: truncation toward zero. -/
def pyInt (x : Rat) : Int := Int.tdiv x.num (x.den : Int)

/-- Progress percentage `int((completed / total) * 100)` (0 for an empty
batch), with the float arithmetic modelled in binary64. -/
def progressPercentage (statuses : List String) : Nat :=
  let total := statuses.length
  let completed := (statuses.filter (fun s => s == "completed")).length
  if 0 < total then (pyInt (floatMul100 (floatDivNat completed total))).toNat else 0

/-! # Theorems -/

/-! ## C8 — repair of a truncated object -/

/-- C8: the JSON repair transform applied to the truncated input
`{"a": [1, 2` — which has two more opening braces/brackets than closing
ones and no open string — returns exactly `{"a": [1, 2]}`, and that output
parses as JSON without error. -/
theorem repair_truncated_object_example :
    repairJson "\x7b\"a\": [1, 2" = "\x7b\"a\": [1, 2]\x7d" ∧
    jsonLoads "\x7b\"a\": [1, 2]\x7d" =
      some (Json.obj [("a", Json.arr [Json.num 1, Json.num 2])]) ∧
    countChar lbraceChar ("\x7b\"a\": [1, 2").data
      + countChar '[' ("\x7b\"a\": [1, 2").data
      - (countChar rbraceChar ("\x7b\"a\": [1, 2").data
         + countChar ']' ("\x7b\"a\": [1, 2").data) = 2 ∧
    scanInString false none ("\x7b\"a\": [1, 2").data = false :=
  ⟨rfl, rfl, rfl, rfl⟩

/-! ## C7 — classifier totality and closed output set -/

/-- C7: for every raw model answer the classifier yields a label in the
closed output set `pv_ag / diags / taxe_fonciere / charges / other`
(the accepted spelling `diagnostic` is renamed `diags`), and the out-of-set
answer `banana` maps to `other`. -/
theorem classify_closed_set_and_banana :
    (∀ (filename : String) (pdfData : List Nat) (resp : Except String String),
        classify_document filename pdfData resp ∈
          (["pv_ag", "diags", "taxe_fonciere", "charges", "other"] : List String)) ∧
    classify_document "doc.pdf" [1] (.ok "banana") = "other" := by
  refine ⟨fun filename pdfData resp => ?_, by decide⟩
  cases resp with
  | error e =>
    unfold classify_document
    by_cases hempty : pdfData.isEmpty <;> simp [hempty]
  | ok raw =>
    unfold classify_document
    by_cases hempty : pdfData.isEmpty
    · simp [hempty]
    · simp only [hempty, Bool.false_eq_true, if_false]
      by_cases hmem : classifyValid.contains (pyLower (pyStrip raw)) = true
      · have hc : pyLower (pyStrip raw) = "pv_ag" ∨ pyLower (pyStrip raw) = "diagnostic" ∨
            pyLower (pyStrip raw) = "diags" ∨ pyLower (pyStrip raw) = "taxe_fonciere" ∨
            pyLower (pyStrip raw) = "charges" ∨ pyLower (pyStrip raw) = "other" := by
          have := List.mem_of_elem_eq_true hmem
          simpa [classifyValid] using this
        rcases hc with hc | hc | hc | hc | hc | hc <;> rw [hc] <;> decide
      · rw [if_neg hmem]; decide

/-! ## C6 — extraction failure yields the safe fallback object -/

/-- C6: for every document and category the extraction step is total, and
on a transport error, an empty cleaned response, or JSON that remains
unparseable after the second repair pass it returns the safe fallback
object: explanatory summary, empty insight list, zero cost fields. -/
theorem extraction_failure_yields_fallback (filename : String) (resp : Except String String)
    (h : (∃ e, resp = .error e) ∨
         (∃ raw, resp = .ok raw ∧ extractJson raw = "") ∨
         (∃ raw, resp = .ok raw ∧ jsonLoads (extractJson raw) = none ∧
            jsonLoads (repairJson (extractJson raw)) = none)) :
    processWithPrompt filename resp =
      Json.obj [("summary", Json.str ("Error processing " ++ filename)),
                ("key_insights", Json.arr []),
                ("estimated_annual_cost", Json.num 0),
                ("one_time_costs", Json.num 0)] := by
  rcases h with ⟨e, rfl⟩ | ⟨raw, rfl, hempty⟩ | ⟨raw, rfl, h1, h2⟩
  · rfl
  · simp [processWithPrompt, hempty, processingFallback]
  · by_cases he : extractJson raw = ""
    · simp [processWithPrompt, he, processingFallback]
    · simp [processWithPrompt, he, h1, h2, processingFallback]

/-- Witness for C6 at a concrete transport error. -/
theorem extraction_failure_yields_fallback_witness :
    processWithPrompt "doc.pdf" (.error "transport error") =
      Json.obj [("summary", Json.str ("Error processing " ++ "doc.pdf")),
                ("key_insights", Json.arr []),
                ("estimated_annual_cost", Json.num 0),
                ("one_time_costs", Json.num 0)] :=
  extraction_failure_yields_fallback "doc.pdf" (.error "transport error")
    (Or.inl ⟨"transport error", rfl⟩)

/-! ## C10 — prepare_pdf totality and shape -/

/-- C10: document preparation is total: for every byte string and every
parse outcome it returns a record whose `pdf_data` is the input bytes
unchanged, whose `text_extractable` flag holds exactly when the extracted
text exceeds 500 characters, whose `extracted_text` is empty whenever the
flag is false (shorter extractions are discarded), and whose `page_count`
is 0 (with the flag false) on a parse failure. -/
theorem prepare_pdf_total_shape (pdfParse : List Nat → PdfParse) (pdf_bytes : List Nat) :
    (prepare_pdf pdfParse pdf_bytes).pdf_data = pdf_bytes ∧
    ((prepare_pdf pdfParse pdf_bytes).text_extractable = true ↔
        500 < (extractedTextOf pdfParse pdf_bytes).length) ∧
    (prepare_pdf pdfParse pdf_bytes).extracted_text =
      (if 500 < (extractedTextOf pdfParse pdf_bytes).length
       then extractedTextOf pdfParse pdf_bytes else "") ∧
    (prepare_pdf pdfParse pdf_bytes).page_count =
      (match pdfParse pdf_bytes with | .failure => 0 | .pages ts => ts.length) := by
  unfold prepare_pdf extractedTextOf
  cases hp : pdfParse pdf_bytes with
  | failure => simp
  | pages ts =>
    refine ⟨rfl, by simp, ?_, rfl⟩
    by_cases hlen :
        500 < (String.intercalate "\n\n" (ts.filter (fun t => pyStrip t ≠ ""))).length <;>
      simp [hlen]

/-! ## C5 — batch aggregate status and progress -/

set_option maxRecDepth 100000 in
set_option maxHeartbeats 4000000 in
/-- The float-computed percentage matches the exact floor or falls one
short, for every batch size the bulk endpoint can create
(`len(files) > 50` is rejected at upload). Checked exhaustively. -/
theorem floatPct_near_floor : ∀ t < 51, 0 < t → ∀ c < t + 1,
    ((pyInt (floatMul100 (floatDivNat c t))).toNat = 100 * c / t ∨
      (pyInt (floatMul100 (floatDivNat c t))).toNat + 1 = 100 * c / t) := by
  decide

/-- A 50-document batch with 29 completed members. -/
def c5Statuses : List String :=
  List.replicate 29 "completed" ++ List.replicate 21 "failed"

/-- C5 counterexample: for 29 completed members out of 50 (a batch size the
upload endpoint accepts) the program reports
`int((29 / 50) * 100) = 57` in binary64 arithmetic, while
`floor(29 / 50 × 100) = 58`: the claimed percentage formula is false of
the program. -/
theorem c5_float_percentage_counterexample :
    c5Statuses.length = 50 ∧
    (c5Statuses.filter (fun s => s == "completed")).length = 29 ∧
    progressPercentage c5Statuses = 57 ∧
    ⌊((c5Statuses.filter (fun s => s == "completed")).length : ℚ)
      / (c5Statuses.length : ℚ) * 100⌋₊ = 58 ∧
    progressPercentage c5Statuses ≠
      ⌊((c5Statuses.filter (fun s => s == "completed")).length : ℚ)
        / (c5Statuses.length : ℚ) * 100⌋₊ := by
  have hD : ⌊((c5Statuses.filter (fun s => s == "completed")).length : ℚ)
      / (c5Statuses.length : ℚ) * 100⌋₊ = 58 := by
    show ⌊((29 : ℕ) : ℚ) / ((50 : ℕ) : ℚ) * 100⌋₊ = 58
    rw [show ((29 : ℕ) : ℚ) / ((50 : ℕ) : ℚ) * 100 = ((58 : ℕ) : ℚ) by push_cast; norm_num]
    exact Nat.floor_natCast 58
  have hC : progressPercentage c5Statuses = 57 := by decide
  refine ⟨rfl, rfl, hC, hD, ?_⟩
  rw [hC, hD]
  decide

/-- C5 amended: for every non-empty batch, the aggregate status is
`completed` iff every member is completed, `failed` iff every member is
failed, `processing` if any member is pending or processing, `unknown`
otherwise; and for every reachable batch size (at most 50 members, the
bulk endpoint's limit) the binary64-computed percentage equals
`floor(completed / total × 100)` or falls exactly one short. -/
theorem bulk_status_aggregate_amended (statuses : List String) (h : statuses ≠ []) :
    (overallStatus statuses = "completed" ↔ ∀ s ∈ statuses, s = "completed") ∧
    (overallStatus statuses = "failed" ↔ ∀ s ∈ statuses, s = "failed") ∧
    ((∃ s ∈ statuses, s = "pending" ∨ s = "processing") →
      overallStatus statuses = "processing") ∧
    ((¬ ∀ s ∈ statuses, s = "completed") → (¬ ∀ s ∈ statuses, s = "failed") →
      (¬ ∃ s ∈ statuses, s = "pending" ∨ s = "processing") →
      overallStatus statuses = "unknown") ∧
    (statuses.length ≤ 50 →
      progressPercentage statuses =
        ⌊((statuses.filter (fun s => s == "completed")).length : ℚ)
          / (statuses.length : ℚ) * 100⌋₊ ∨
      progressPercentage statuses + 1 =
        ⌊((statuses.filter (fun s => s == "completed")).length : ℚ)
          / (statuses.length : ℚ) * 100⌋₊) := by
  have htot : 0 < statuses.length := List.length_pos.mpr h
  have hcomp : ((statuses.filter (fun s => s == "completed")).length = statuses.length)
      ↔ ∀ s ∈ statuses, s = "completed" := by
    rw [← List.countP_eq_length_filter, List.countP_eq_length]
    simp
  have hfail : ((statuses.filter (fun s => s == "failed")).length = statuses.length)
      ↔ ∀ s ∈ statuses, s = "failed" := by
    rw [← List.countP_eq_length_filter, List.countP_eq_length]
    simp
  have hproc : (0 < (statuses.filter (fun s => s == "processing")).length ∨
      0 < (statuses.filter (fun s => s == "pending")).length) ↔
      (∃ s ∈ statuses, s = "pending" ∨ s = "processing") := by
    rw [← List.countP_eq_length_filter, ← List.countP_eq_length_filter,
      List.countP_pos_iff, List.countP_pos_iff]
    constructor
    · rintro (⟨s, hs, hp⟩ | ⟨s, hs, hp⟩) <;> refine ⟨s, hs, ?_⟩ <;> simp at hp <;> tauto
    · rintro ⟨s, hs, h1 | h1⟩
      · right; exact ⟨s, hs, by simp [h1]⟩
      · left; exact ⟨s, hs, by simp [h1]⟩
  refine ⟨?_, ?_, ?_, ?_, ?_⟩
  · simp only [overallStatus]
    split_ifs with h1 h2 h3
    · exact iff_of_true rfl (hcomp.mp h1)
    · exact iff_of_false (by decide) (fun y => h1 (hcomp.mpr y))
    · exact iff_of_false (by decide) (fun y => h1 (hcomp.mpr y))
    · exact iff_of_false (by decide) (fun y => h1 (hcomp.mpr y))
  · simp only [overallStatus]
    split_ifs with h1 h2 h3
    · refine iff_of_false (by decide) (fun y => ?_)
      obtain ⟨s0, hs0⟩ := List.exists_mem_of_ne_nil statuses h
      have e1 := hcomp.mp h1 s0 hs0
      have e2 := y s0 hs0
      rw [e1] at e2
      exact absurd e2 (by decide)
    · exact iff_of_true rfl (hfail.mp h2)
    · exact iff_of_false (by decide) (fun y => h2 (hfail.mpr y))
    · exact iff_of_false (by decide) (fun y => h2 (hfail.mpr y))
  · intro hex
    simp only [overallStatus]
    split_ifs with h1 h2 h3
    · obtain ⟨s, hs, hsor⟩ := hex
      have e := hcomp.mp h1 s hs
      rcases hsor with h' | h' <;> rw [h'] at e <;> exact absurd e (by decide)
    · obtain ⟨s, hs, hsor⟩ := hex
      have e := hfail.mp h2 s hs
      rcases hsor with h' | h' <;> rw [h'] at e <;> exact absurd e (by decide)
    · rfl
    · exact absurd (hproc.mpr hex) h3
  · intro hnc hnf hnex
    simp only [overallStatus]
    split_ifs with h1 h2 h3
    · exact absurd (hcomp.mp h1) hnc
    · exact absurd (hfail.mp h2) hnf
    · exact absurd (hproc.mp h3) hnex
    · rfl
  · intro hle
    have hfloor : ⌊((statuses.filter (fun s => s == "completed")).length : ℚ)
        / (statuses.length : ℚ) * 100⌋₊
        = 100 * (statuses.filter (fun s => s == "completed")).length / statuses.length := by
      have hcast : ((statuses.filter (fun s => s == "completed")).length : ℚ)
          / (statuses.length : ℚ) * 100
          = (((100 * (statuses.filter (fun s => s == "completed")).length : ℕ)) : ℚ)
            / ((statuses.length : ℕ) : ℚ) := by
        push_cast
        ring
      rw [hcast, Nat.floor_div_nat, Nat.floor_natCast]
    have hcle : (statuses.filter (fun s => s == "completed")).length ≤ statuses.length :=
      List.length_filter_le _ _
    have hkey := floatPct_near_floor statuses.length (by omega) htot
      ((statuses.filter (fun s => s == "completed")).length) (by omega)
    rw [hfloor]
    simp only [progressPercentage]
    rw [if_pos htot]
    exact hkey

/-- Witness for the amended C5 at a concrete two-member batch. -/
theorem bulk_status_aggregate_amended_witness :
    (overallStatus ["completed", "failed"] = "completed" ↔
      ∀ s ∈ (["completed", "failed"] : List String), s = "completed") ∧
    (progressPercentage ["completed", "failed"]
        = ⌊(((["completed", "failed"] : List String).filter
              (fun s => s == "completed")).length : ℚ)
            / ((["completed", "failed"] : List String).length : ℚ) * 100⌋₊ ∨
      progressPercentage ["completed", "failed"] + 1
        = ⌊(((["completed", "failed"] : List String).filter
              (fun s => s == "completed")).length : ℚ)
            / ((["completed", "failed"] : List String).length : ℚ) * 100⌋₊) :=
  ⟨(bulk_status_aggregate_amended ["completed", "failed"] (by decide)).1,
    (bulk_status_aggregate_amended ["completed", "failed"] (by decide)).2.2.2.2 (by decide)⟩

/-! ## C9 — regeneration with zero completed documents deletes the row -/

/-- After deleting the first matching overall synthesis row, none is left,
provided the store held at most one (the one-row-per-case shape of the
synthesis table). -/
theorem find_after_deleteFirstSummary (ss : List SummaryRow) (pid : Nat)
    (huniq : (ss.filter (fun s => s.property_id == pid && s.category == none)).length ≤ 1) :
    (deleteFirstSummary ss pid).find? (fun s => s.property_id == pid && s.category == none)
      = none := by
  induction ss with
  | nil => rfl
  | cons s rest ih =>
    by_cases hp : (s.property_id == pid && s.category == none) = true
    · have hlen0 : (rest.filter
          (fun s => s.property_id == pid && s.category == none)).length = 0 := by
        rw [List.filter_cons, if_pos hp] at huniq
        simp only [List.length_cons] at huniq
        omega
      have hnone : ∀ x ∈ rest, ¬(x.property_id == pid && x.category == none) = true :=
        List.filter_eq_nil_iff.mp (List.length_eq_zero.mp hlen0)
      simp only [deleteFirstSummary]
      rw [if_pos hp]
      exact List.find?_eq_none.mpr hnone
    · rw [List.filter_cons, if_neg hp] at huniq
      simp only [deleteFirstSummary]
      rw [if_neg hp,
        List.find?_cons_of_neg (p := fun x : SummaryRow => x.property_id == pid && x.category == none) _ hp]
      exact ih huniq

/-- C9: when regeneration runs for a case with zero analyzed (completed)
documents, any pre-existing overall synthesis row is deleted and no new
row is written; when additionally no row exists, the store is unchanged. -/
theorem regen_zero_docs_deletes_row (resp : Except String String) (pid : Nat) (st : DbState)
    (hempty : (st.docs.filter (fun d => d.property_id == pid && d.is_analyzed)).isEmpty = true)
    (huniq : (st.summaries.filter
        (fun s => s.property_id == pid && s.category == none)).length ≤ 1) :
    findSummary (regenerateOverallSynthesis resp pid st) pid = none ∧
    (findSummary st pid = none → regenerateOverallSynthesis resp pid st = st) := by
  unfold regenerateOverallSynthesis
  rw [if_pos hempty]
  cases hfind : findSummary st pid with
  | none => exact ⟨hfind, fun _ => rfl⟩
  | some row =>
    exact ⟨find_after_deleteFirstSummary st.summaries pid huniq,
      fun hcontra => absurd hcontra (by simp)⟩

/-- A concrete pre-existing synthesis row carrying an overrides sub-tree
(shared by the C9 witness and the C4 counterexample). -/
def overridesRow : SummaryRow :=
  { newSummaryRow 7 with
    synthesis_data := some (Json.obj [("user_overrides", Json.str "keep me")]) }

/-- A store with no documents and one overall synthesis row for case 7. -/
def zeroDocState : DbState :=
  { docs := [], summaries := [overridesRow], users := [] }

/-- Witness for C9: regenerating case 7 of `zeroDocState` deletes its row. -/
theorem regen_zero_docs_deletes_row_witness :
    findSummary (regenerateOverallSynthesis (.ok "irrelevant") 7 zeroDocState) 7 = none ∧
    (findSummary zeroDocState 7 = none →
      regenerateOverallSynthesis (.ok "irrelevant") 7 zeroDocState = zeroDocState) :=
  regen_zero_docs_deletes_row (.ok "irrelevant") 7 zeroDocState rfl (by decide)

/-! ## State lemmas for the coordinator -/

/-- Characterization of `find?` after an id-preserving first-match update:
looking up the updated id sees the update applied, any other id is
untouched. -/
theorem find?_updateFirstDoc (ds : List DocRow) (i j : Nat) (f : DocRow → DocRow)
    (hid : ∀ d, (f d).id = d.id) :
    (updateFirstDoc ds i f).find? (fun d => d.id == j)
      = if j = i then (ds.find? (fun d => d.id == i)).map f
        else ds.find? (fun d => d.id == j) := by
  induction ds with
  | nil => by_cases h : j = i <;> simp [updateFirstDoc, h]
  | cons d rest ih =>
    by_cases hdi : d.id = i
    · have hupd : updateFirstDoc (d :: rest) i f = f d :: rest := by
        simp [updateFirstDoc, hdi]
      rw [hupd]
      by_cases hji : j = i
      · subst hji
        have h1 : ((f d).id == j) = true := by simp [hid, hdi]
        have h2 : (d.id == j) = true := by simp [hdi]
        rw [if_pos rfl, List.find?_cons_of_pos (p := fun x : DocRow => x.id == j) _ h1,
          List.find?_cons_of_pos (p := fun x : DocRow => x.id == j) _ h2]
        rfl
      · have h1 : ¬ ((f d).id == j) = true := by simp [hid, hdi, Ne.symm hji]
        have h2 : ¬ (d.id == j) = true := by simp [hdi, Ne.symm hji]
        rw [if_neg hji, List.find?_cons_of_neg (p := fun x : DocRow => x.id == j) _ h1,
          List.find?_cons_of_neg (p := fun x : DocRow => x.id == j) _ h2]
    · have hupd : updateFirstDoc (d :: rest) i f = d :: updateFirstDoc rest i f := by
        simp [updateFirstDoc, hdi]
      rw [hupd]
      by_cases hdj : d.id = j
      · have hji : ¬ j = i := fun h => hdi (hdj.trans h)
        have h2 : (d.id == j) = true := by simp [hdj]
        rw [if_neg hji, List.find?_cons_of_pos (p := fun x : DocRow => x.id == j) _ h2,
          List.find?_cons_of_pos (p := fun x : DocRow => x.id == j) _ h2]
      · have h2 : ¬ (d.id == j) = true := by simp [hdj]
        rw [List.find?_cons_of_neg (p := fun x : DocRow => x.id == j) _ h2, ih]
        by_cases hji : j = i
        · subst hji
          have h3 : ¬ (d.id == j) = true := by simp [hdj]
          rw [if_pos rfl, if_pos rfl,
            List.find?_cons_of_neg (p := fun x : DocRow => x.id == j) _ h3]
        · rw [if_neg hji, if_neg hji,
            List.find?_cons_of_neg (p := fun x : DocRow => x.id == j) _ h2]

/-- Lift of `find?_updateFirstDoc` to a state whose docs were updated. -/
theorem findDoc_updateFirst (st : DbState) (i j : Nat) (f : DocRow → DocRow)
    (hid : ∀ d, (f d).id = d.id) :
    findDoc { st with docs := updateFirstDoc st.docs i f } j
      = if j = i then (findDoc st i).map f else findDoc st j :=
  find?_updateFirstDoc st.docs i j f hid

/-- Characterization of the per-member update folds (`markProcessing` and
`markFailed` both have this shape): member ids see one application of the
idempotent setter, other rows are untouched. -/
theorem find?_foldUpdate (uploads : List Upload) (f : DocRow → DocRow) (ds : List DocRow)
    (j : Nat) (hid : ∀ d, (f d).id = d.id) (hidem : ∀ d, f (f d) = f d) :
    ((uploads.foldl (fun (acc : List DocRow) (x : Upload) =>
        updateFirstDoc acc x.document_id f) ds).find? (fun d => d.id == j))
      = if uploads.any (fun x : Upload => x.document_id == j)
        then (ds.find? (fun d => d.id == j)).map f
        else ds.find? (fun d => d.id == j) := by
  induction uploads generalizing ds with
  | nil => simp
  | cons u us ih =>
    rw [List.foldl_cons, ih (updateFirstDoc ds u.document_id f),
      find?_updateFirstDoc ds u.document_id j f hid]
    by_cases hany : us.any (fun x : Upload => x.document_id == j) = true
    · have hall : ((u :: us).any (fun x : Upload => x.document_id == j)) = true := by
        simp [List.any_cons, hany]
      rw [if_pos hany, if_pos hall]
      by_cases hji : j = u.document_id
      · rw [if_pos hji, hji]
        cases ds.find? (fun d => d.id == u.document_id) <;> simp [hidem]
      · rw [if_neg hji]
    · rw [if_neg hany]
      by_cases hji : j = u.document_id
      · have hall : ((u :: us).any (fun x : Upload => x.document_id == j)) = true := by
          simp [List.any_cons, hji]
        rw [if_pos hji, if_pos hall, hji]
      · have hall : ¬ ((u :: us).any (fun x : Upload => x.document_id == j)) = true := by
          simp only [List.any_cons, Bool.or_eq_true]
          rintro (h | h)
          · have hj : u.document_id = j := by simpa using h
            exact hji hj.symm
          · exact hany h
        rw [if_neg hji, if_neg hall]

/-- Member rows after `markFailed` carry status `failed` and the captured
error text; other rows are untouched. -/
theorem findDoc_markFailed (uploads : List Upload) (e : String) (st : DbState) (j : Nat) :
    findDoc (markFailed uploads e st) j
      = if uploads.any (fun x : Upload => x.document_id == j)
        then (findDoc st j).map
          (fun d => { d with processing_status := "failed", processing_error := some e })
        else findDoc st j :=
  find?_foldUpdate uploads
    (fun d => { d with processing_status := "failed", processing_error := some e })
    st.docs j (fun _ => rfl) (fun _ => rfl)

/-- Member rows after `markProcessing` carry status `processing`; other
rows are untouched. -/
theorem findDoc_markProcessing (uploads : List Upload) (st : DbState) (j : Nat) :
    findDoc (markProcessing uploads st) j
      = if uploads.any (fun x : Upload => x.document_id == j)
        then (findDoc st j).map (fun d => { d with processing_status := "processing" })
        else findDoc st j :=
  find?_foldUpdate uploads (fun d => { d with processing_status := "processing" })
    st.docs j (fun _ => rfl) (fun _ => rfl)

/-! ## C1 — a member download failure is batch-fatal, not per-document -/

/-- A freshly uploaded document row (upload creates rows with
status `pending` and no analysis). -/
def mkDocRow (i pid : Nat) (fn status : String) (analyzed : Bool) : DocRow :=
  { id := i, property_id := pid, user_id := none, filename := fn,
    processing_status := status, processing_error := none, is_analyzed := analyzed,
    document_category := "unclassified", document_subcategory := Json.null,
    analysis_summary := Json.null, key_insights := Json.null,
    estimated_annual_cost := Json.null, one_time_costs := Json.null,
    extracted_data := none }

/-- Environment for the 3-document scenario: only document 2's blob
download raises; every other collaborator call succeeds. -/
def c1Env : BulkEnv :=
  { download := fun k => if k = "k2" then .error "download boom" else .ok [1],
    pdfParse := fun _ => .pages ["page text"],
    classifyResp := fun _ => .ok "pv_ag",
    extractResp := fun _ => .ok "\x7b\"summary\": \"ok\"\x7d",
    synthesisResp := .ok "\x7b\"summary\": \"synth\"\x7d",
    synthesisCommitError := none }

/-- The 3-document batch of the scenario. -/
def c1Uploads : List Upload :=
  [⟨1, "k1", "a.pdf"⟩, ⟨2, "k2", "b.pdf"⟩, ⟨3, "k3", "c.pdf"⟩]

/-- Store holding the three freshly uploaded member documents of case 7. -/
def c1St0 : DbState :=
  { docs := [mkDocRow 1 7 "a.pdf" "pending" false, mkDocRow 2 7 "b.pdf" "pending" false,
             mkDocRow 3 7 "c.pdf" "pending" false],
    summaries := [], users := [] }

/-- C1 counterexample: in the 3-document batch where exactly document 2's
download raises and all other steps succeed, documents 1 and 3 do NOT end
`completed`: the failure escapes `asyncio.gather` in `_download_files`,
reaches the coordinator's except handler, and all three documents end
`failed` with the captured error text, with no synthesis generated. -/
theorem c1_download_failure_counterexample :
    statusOf (process_bulk_upload c1Env 7 c1Uploads c1St0).final 1 ≠ some "completed" ∧
    statusOf (process_bulk_upload c1Env 7 c1Uploads c1St0).final 3 ≠ some "completed" ∧
    statusOf (process_bulk_upload c1Env 7 c1Uploads c1St0).final 1 = some "failed" ∧
    statusOf (process_bulk_upload c1Env 7 c1Uploads c1St0).final 2 = some "failed" ∧
    statusOf (process_bulk_upload c1Env 7 c1Uploads c1St0).final 3 = some "failed" ∧
    errorOf (process_bulk_upload c1Env 7 c1Uploads c1St0).final 1
      = some (some "download boom") ∧
    errorOf (process_bulk_upload c1Env 7 c1Uploads c1St0).final 2
      = some (some "download boom") ∧
    (process_bulk_upload c1Env 7 c1Uploads c1St0).synthesisInput = none ∧
    (process_bulk_upload c1Env 7 c1Uploads c1St0).final.summaries = [] :=
  ⟨by decide, by decide, rfl, rfl, rfl, rfl, rfl, rfl, rfl⟩

/-- C1 amended: in `BulkProcessor.process_bulk_upload` a failing member
download is batch-fatal: when any download errs, every member document
present in the store ends `failed` with the captured error text stored,
no synthesis is generated, and the synthesis table is untouched. -/
theorem download_failure_is_batch_fatal (env : BulkEnv) (pid : Nat) (uploads : List Upload)
    (st0 : DbState) (e : String)
    (hdl : downloadFiles env.download uploads = .error e) :
    (∀ u ∈ uploads,
        statusOf (process_bulk_upload env pid uploads st0).final u.document_id
          = (statusOf st0 u.document_id).map (fun _ => "failed") ∧
        errorOf (process_bulk_upload env pid uploads st0).final u.document_id
          = (errorOf st0 u.document_id).map (fun _ => some e)) ∧
    (process_bulk_upload env pid uploads st0).final.summaries = st0.summaries ∧
    (process_bulk_upload env pid uploads st0).synthesisInput = none ∧
    (process_bulk_upload env pid uploads st0).batchError = some e := by
  have hrun : process_bulk_upload env pid uploads st0
      = { trace := [st0, markProcessing uploads st0,
            markFailed uploads e (markProcessing uploads st0)],
          final := markFailed uploads e (markProcessing uploads st0),
          synthesisInput := none, batchError := some e } := by
    unfold process_bulk_upload
    rw [hdl]
  rw [hrun]
  refine ⟨fun u hu => ?_, rfl, rfl, rfl⟩
  have hall : (uploads.any (fun x : Upload => x.document_id == u.document_id)) = true :=
    List.any_eq_true.mpr ⟨u, hu, by simp⟩
  constructor
  · unfold statusOf
    rw [findDoc_markFailed, if_pos hall, findDoc_markProcessing, if_pos hall]
    cases findDoc st0 u.document_id <;> rfl
  · unfold errorOf
    rw [findDoc_markFailed, if_pos hall, findDoc_markProcessing, if_pos hall]
    cases findDoc st0 u.document_id <;> rfl

/-- Witness for the amended C1 at the concrete 3-document scenario. -/
theorem download_failure_is_batch_fatal_witness :
    (∀ u ∈ c1Uploads,
        statusOf (process_bulk_upload c1Env 7 c1Uploads c1St0).final u.document_id
          = (statusOf c1St0 u.document_id).map (fun _ => "failed") ∧
        errorOf (process_bulk_upload c1Env 7 c1Uploads c1St0).final u.document_id
          = (errorOf c1St0 u.document_id).map (fun _ => some "download boom")) ∧
    (process_bulk_upload c1Env 7 c1Uploads c1St0).final.summaries = c1St0.summaries ∧
    (process_bulk_upload c1Env 7 c1Uploads c1St0).synthesisInput = none ∧
    (process_bulk_upload c1Env 7 c1Uploads c1St0).batchError = some "download boom" :=
  download_failure_is_batch_fatal c1Env 7 c1Uploads c1St0 "download boom" rfl

/-! ## C3 — the coordinator synthesizes from the batch only -/

/-- A successful `_download_files` returns one payload per member. -/
theorem downloadFiles_ok_length (dl : String → Except String (List Nat)) :
    ∀ (uploads : List Upload) (files : List (List Nat)),
      downloadFiles dl uploads = .ok files → files.length = uploads.length := by
  intro uploads
  induction uploads with
  | nil =>
    intro files h
    simp only [downloadFiles] at h
    cases h
    rfl
  | cons u us ih =>
    intro files h
    simp only [downloadFiles] at h
    cases hd : dl u.storage_key with
    | error e => rw [hd] at h; cases h
    | ok b =>
      rw [hd] at h
      cases hrec : downloadFiles dl us with
      | error e => rw [hrec] at h; cases h
      | ok bs =>
        rw [hrec] at h
        cases h
        simp [ih bs hrec]

/-- The synthesis request enumerates exactly the filenames of the
member list it was built from, in order. -/
theorem buildResults_map_filename (env : BulkEnv) :
    ∀ (i : Nat) (l : List (Upload × Prepared)),
      (buildResults env i l).map (fun r => r.filename) = l.map (fun p => p.1.filename) := by
  intro i l
  induction l generalizing i with
  | nil => rfl
  | cons p rest ih =>
    cases p with
    | mk u prep => simp [buildResults, processDocument, ih]

/-- Store for the C3 scenario: case 7 already holds an analyzed, completed
document (id 9, `old.pdf`) that is not part of the new batch. -/
def c3St0 : DbState :=
  { docs := [{ mkDocRow 9 7 "old.pdf" "completed" true with
                 analysis_summary := Json.str "old summary" },
             mkDocRow 1 7 "new.pdf" "pending" false],
    summaries := [], users := [] }

/-- The new single-document batch for case 7. -/
def c3Uploads : List Upload := [⟨1, "k1", "new.pdf"⟩]

/-- Fully successful environment for the C3 scenario. -/
def c3Env : BulkEnv :=
  { download := fun _ => .ok [1],
    pdfParse := fun _ => .pages ["page text"],
    classifyResp := fun _ => .ok "pv_ag",
    extractResp := fun _ => .ok "\x7b\"summary\": \"ok\"\x7d",
    synthesisResp := .ok "\x7b\"summary\": \"synth\"\x7d",
    synthesisCommitError := none }

/-- C3 counterexample: when the coordinator of case 7 reaches the synthesis
step for a 1-document batch, the synthesis request enumerates only
`new.pdf`, although `old.pdf` is a currently-completed (analyzed) document
of the same case — before and after the run. -/
theorem c3_synthesis_ignores_prior_documents :
    ((process_bulk_upload c3Env 7 c3Uploads c3St0).synthesisInput).map
        (fun l => l.map (fun r => r.filename)) = some ["new.pdf"] ∧
    statusOf c3St0 9 = some "completed" ∧
    ((findDoc c3St0 9).map (fun d => d.is_analyzed)) = some true ∧
    ((findDoc c3St0 9).map (fun d => d.filename)) = some "old.pdf" ∧
    statusOf (process_bulk_upload c3Env 7 c3Uploads c3St0).final 9 = some "completed" ∧
    "old.pdf" ∉ (["new.pdf"] : List String) :=
  ⟨rfl, rfl, rfl, rfl, rfl, by decide⟩

/-- C3 amended: whenever the downloads succeed (so the run reaches the
synthesis step), the synthesis request enumerates exactly the triggering
batch's documents, in batch order, independently of the record store's
contents; the all-completed-documents view is used only by the separate
`_regenerate_overall_synthesis` path. -/
theorem synthesis_input_is_batch_only (env : BulkEnv) (pid : Nat) (uploads : List Upload)
    (st0 st0' : DbState) (files : List (List Nat))
    (hdl : downloadFiles env.download uploads = .ok files) :
    ((process_bulk_upload env pid uploads st0).synthesisInput).map
        (fun l => l.map (fun r => r.filename)) = some (uploads.map (fun u => u.filename)) ∧
    (process_bulk_upload env pid uploads st0).synthesisInput
      = (process_bulk_upload env pid uploads st0').synthesisInput := by
  have hsyn : ∀ st : DbState, (process_bulk_upload env pid uploads st).synthesisInput
      = some (buildResults env 0 (uploads.zip (files.map (prepare_pdf env.pdfParse)))) := by
    intro st
    unfold process_bulk_upload
    rw [hdl]
  have hlen : uploads.length ≤ (files.map (prepare_pdf env.pdfParse)).length := by
    rw [List.length_map, downloadFiles_ok_length env.download uploads files hdl]
  refine ⟨?_, (hsyn st0).trans (hsyn st0').symm⟩
  rw [hsyn st0]
  show some ((buildResults env 0 (uploads.zip (files.map (prepare_pdf env.pdfParse)))).map
      (fun r => r.filename)) = some (uploads.map (fun u => u.filename))
  rw [buildResults_map_filename]
  have hcomp : (fun p : Upload × Prepared => p.1.filename)
      = (fun u : Upload => u.filename) ∘ Prod.fst := rfl
  rw [hcomp, ← List.map_map, List.map_fst_zip _ _ hlen]

/-- Witness for the amended C3 at the concrete 1-document batch. -/
theorem synthesis_input_is_batch_only_witness :
    ((process_bulk_upload c3Env 7 c3Uploads c3St0).synthesisInput).map
        (fun l => l.map (fun r => r.filename)) = some (c3Uploads.map (fun u => u.filename)) ∧
    (process_bulk_upload c3Env 7 c3Uploads c3St0).synthesisInput
      = (process_bulk_upload c3Env 7 c3Uploads c1St0).synthesisInput :=
  synthesis_input_is_batch_only c3Env 7 c3Uploads c3St0 c1St0 [[1]] rfl

/-! ## C4 — overrides round-trip across regeneration -/

/-- After a dict-style assignment the key holds the assigned value. -/
theorem find?_dictSet (fields : List (String × Json)) (k : String) (v : Json) :
    (((dictSet fields k v).find? (fun p : String × Json => p.1 == k)).map
      (fun p : String × Json => p.2)) = some v := by
  unfold dictSet
  by_cases hex : ((fields.find? (fun p : String × Json => p.1 == k)).isSome) = true
  · rw [if_pos hex]
    induction fields with
    | nil => simp at hex
    | cons p rest ih =>
      by_cases hp : (p.1 == k) = true
      · have hk : p.1 = k := by simpa using hp
        simp only [List.map_cons]
        rw [if_pos hp,
          List.find?_cons_of_pos (p := fun q : String × Json => q.1 == k) _ (by simpa using hp)]
        rfl
      · simp only [List.map_cons]
        rw [if_neg hp, List.find?_cons_of_neg (p := fun q : String × Json => q.1 == k) _ hp]
        apply ih
        rw [List.find?_cons_of_neg (p := fun q : String × Json => q.1 == k) _ hp] at hex
        exact hex
  · rw [if_neg hex]
    have hnone : fields.find? (fun p : String × Json => p.1 == k) = none := by
      cases hf : fields.find? (fun p : String × Json => p.1 == k) with
      | none => rfl
      | some a => rw [hf] at hex; simp at hex
    have hall : ∀ p ∈ fields, ¬ ((fun q : String × Json => q.1 == k) p = true) :=
      fun p hp => List.find?_eq_none.mp hnone p hp
    induction fields with
    | nil => simp
    | cons p rest ih =>
      rw [List.cons_append,
        List.find?_cons_of_neg (p := fun q : String × Json => q.1 == k) _
          (hall p (by simp))]
      exact ih (by
          cases hf : rest.find? (fun p : String × Json => p.1 == k) with
          | none => simp
          | some a =>
            have := List.find?_some hf
            exact absurd this (hall a (List.mem_cons_of_mem p (List.mem_of_find?_eq_some hf))))
        (by
          cases hf : rest.find? (fun p : String × Json => p.1 == k) with
          | none => rfl
          | some a =>
            have := List.find?_some hf
            exact absurd this (hall a (List.mem_cons_of_mem p (List.mem_of_find?_eq_some hf))))
        (fun q hq => hall q (List.mem_cons_of_mem p hq))

/-- Replacing the first matching synthesis row makes lookups see the
replacement, provided a row existed and the replacement still matches. -/
theorem find?_replaceFirstSummary (ss : List SummaryRow) (pid : Nat) (row : SummaryRow)
    (hrow : (row.property_id == pid && row.category == none) = true)
    (hsome : (ss.find? (fun s => s.property_id == pid && s.category == none)).isSome = true) :
    (replaceFirstSummary ss pid row).find?
        (fun s => s.property_id == pid && s.category == none) = some row := by
  induction ss with
  | nil => simp at hsome
  | cons s rest ih =>
    by_cases hp : (s.property_id == pid && s.category == none) = true
    · simp only [replaceFirstSummary]
      rw [if_pos hp,
        List.find?_cons_of_pos (p := fun x : SummaryRow =>
          x.property_id == pid && x.category == none) _ hrow]
    · simp only [replaceFirstSummary]
      rw [if_neg hp,
        List.find?_cons_of_neg (p := fun x : SummaryRow =>
          x.property_id == pid && x.category == none) _ hp]
      apply ih
      rw [List.find?_cons_of_neg (p := fun x : SummaryRow =>
        x.property_id == pid && x.category == none) _ hp] at hsome
      exact hsome

/-- The persist block carries `user_overrides` forward: when the previous
`synthesis_data` is an object holding the key, the newly stored object is
the new synthesis with the old overrides written over it. -/
theorem applySynthesisRow_overrides (row : SummaryRow) (old : List (String × Json)) (v : Json)
    (sfields : List (String × Json))
    (hdata : row.synthesis_data = some (Json.obj old))
    (hover : ((old.find? (fun p : String × Json => p.1 == "user_overrides")).map
        (fun p : String × Json => p.2)) = some v) :
    (applySynthesisRow row sfields).synthesis_data
      = some (Json.obj (dictSet sfields "user_overrides" v)) := by
  simp only [applySynthesisRow, hdata, hover]

/-- C4 counterexample: case 7's synthesis row carries an overrides sub-tree
and no override-setting call occurs, yet a regeneration performed while the
case has zero completed documents deletes the row — immediately after the
regeneration no persisted synthesis carries the sub-tree. -/
theorem c4_overrides_lost_on_zero_doc_regeneration :
    ((findSummary zeroDocState 7).map (fun r => r.synthesis_data))
      = some (some (Json.obj [("user_overrides", Json.str "keep me")])) ∧
    findSummary (regenerateOverallSynthesis (.ok "\x7b\"summary\": \"s\"\x7d") 7 zeroDocState) 7
      = none :=
  ⟨rfl, rfl⟩

/-- C4 amended: the overrides sub-tree round-trips unchanged through every
regeneration that persists a synthesis — every `_save_synthesis` call and
every `_regenerate_overall_synthesis` call made while the case has at least
one analyzed document (a regeneration with zero completed documents instead
deletes the row, discarding the overrides). -/
theorem overrides_roundtrip_amended (st : DbState) (pid : Nat) (row : SummaryRow)
    (old : List (String × Json)) (v : Json)
    (hfind : findSummary st pid = some row)
    (hdata : row.synthesis_data = some (Json.obj old))
    (hover : ((old.find? (fun p : String × Json => p.1 == "user_overrides")).map
        (fun p : String × Json => p.2)) = some v) :
    (∀ sfields : List (String × Json),
        ((findSummary (saveSynthesis st sfields pid) pid).map (fun r => r.synthesis_data))
          = some (some (Json.obj (dictSet sfields "user_overrides" v))) ∧
        (((dictSet sfields "user_overrides" v).find?
            (fun p : String × Json => p.1 == "user_overrides")).map
          (fun p : String × Json => p.2)) = some v) ∧
    (∀ (resp : Except String String) (sfields : List (String × Json)),
        (st.docs.filter (fun d => d.property_id == pid && d.is_analyzed)).isEmpty = false →
        synthesisFields (synthesize_results
            ((st.docs.filter (fun d => d.property_id == pid && d.is_analyzed)).map
              buildRegenResult) resp) = some sfields →
        ((findSummary (regenerateOverallSynthesis resp pid st) pid).map
            (fun r => r.synthesis_data))
          = some (some (Json.obj (dictSet sfields "user_overrides" v)))) := by
  have hfind' : st.summaries.find?
      (fun s : SummaryRow => s.property_id == pid && s.category == none) = some row := hfind
  have hpredrow : (row.property_id == pid && row.category == none) = true :=
    List.find?_some
      (p := fun s : SummaryRow => s.property_id == pid && s.category == none) hfind'
  have hsome : (st.summaries.find?
      (fun s : SummaryRow => s.property_id == pid && s.category == none)).isSome = true := by
    rw [hfind']
    rfl
  have hsave : ∀ sfields : List (String × Json),
      ((findSummary (saveSynthesis st sfields pid) pid).map (fun r => r.synthesis_data))
        = some (some (Json.obj (dictSet sfields "user_overrides" v))) := by
    intro sfields
    unfold saveSynthesis
    rw [hfind]
    show ((replaceFirstSummary st.summaries pid (applySynthesisRow row sfields)).find?
        (fun s => s.property_id == pid && s.category == none)).map (fun r => r.synthesis_data)
      = _
    rw [find?_replaceFirstSummary st.summaries pid (applySynthesisRow row sfields)
      hpredrow hsome]
    rw [Option.map_some', applySynthesisRow_overrides row old v sfields hdata hover]
  refine ⟨fun sfields => ⟨hsave sfields, find?_dictSet sfields "user_overrides" v⟩,
    fun resp sfields hne hsf => ?_⟩
  simp only [regenerateOverallSynthesis, hne, Bool.false_eq_true, if_false, hsf]
  exact hsave sfields

/-- Store for the C4 witness: case 7 has one analyzed document and a
synthesis row carrying an overrides sub-tree. -/
def c4St : DbState :=
  { docs := [mkDocRow 9 7 "old.pdf" "completed" true],
    summaries := [overridesRow], users := [] }

/-- Witness for the amended C4: saving a fresh synthesis over `c4St`'s row
carries the overrides value forward. -/
theorem overrides_roundtrip_amended_witness :
    ((findSummary (saveSynthesis c4St [("summary", Json.str "new")] 7) 7).map
        (fun r => r.synthesis_data))
      = some (some (Json.obj (dictSet [("summary", Json.str "new")]
          "user_overrides" (Json.str "keep me")))) ∧
    (((dictSet [("summary", Json.str "new")] "user_overrides" (Json.str "keep me")).find?
        (fun p : String × Json => p.1 == "user_overrides")).map
      (fun p : String × Json => p.2)) = some (Json.str "keep me") :=
  (overrides_roundtrip_amended c4St 7 overridesRow
      [("user_overrides", Json.str "keep me")] (Json.str "keep me") rfl rfl rfl).1
    [("summary", Json.str "new")]

/-! ## C2 — forward-only status transitions -/

/-- One forward move of the per-document status machine:
stay, `pending → {processing, completed, failed}`, or
`processing → {completed, failed}`. Terminal statuses never change. -/
def forwardStep (a b : String) : Prop :=
  a = b ∨ (a = "pending" ∧ (b = "processing" ∨ b = "completed" ∨ b = "failed"))
        ∨ (a = "processing" ∧ (b = "completed" ∨ b = "failed"))

/-- Forward move lifted to optional statuses (rows are never created or
deleted by the pipeline). -/
def forwardStatus : Option String → Option String → Prop
  | some a, some b => forwardStep a b
  | none, none => True
  | _, _ => False

/-- Every document's status moves forward between two states. -/
def forwardState (s1 s2 : DbState) : Prop :=
  ∀ j : Nat, forwardStatus (statusOf s1 j) (statusOf s2 j)

/-- Staying put is a forward move. -/
theorem forwardStatus_refl : ∀ o : Option String, forwardStatus o o
  | none => trivial
  | some _ => Or.inl rfl

/-- Status view of `markProcessing`. -/
theorem statusOf_markProcessing (uploads : List Upload) (st : DbState) (j : Nat) :
    statusOf (markProcessing uploads st) j
      = if uploads.any (fun x : Upload => x.document_id == j)
        then (statusOf st j).map (fun _ => "processing") else statusOf st j := by
  unfold statusOf
  rw [findDoc_markProcessing]
  by_cases h : uploads.any (fun x : Upload => x.document_id == j) = true
  · rw [if_pos h, if_pos h]
    cases findDoc st j <;> rfl
  · rw [if_neg h, if_neg h]

/-- `_save_document_result` either leaves a status untouched or sets the
saved document's status to `completed` (the row existed before). -/
theorem statusOf_saveDocumentResult (st : DbState) (r : ResultEntry) (j : Nat) :
    statusOf (saveDocumentResult st r) j = statusOf st j ∨
      (j = r.document_id ∧ statusOf (saveDocumentResult st r) j = some "completed" ∧
        (statusOf st j).isSome = true) := by
  by_cases h0 : r.document_id = 0
  · refine Or.inl ?_
    unfold saveDocumentResult
    rw [if_pos h0]
  · cases hfd : findDoc st r.document_id with
    | none =>
      refine Or.inl ?_
      unfold saveDocumentResult
      rw [if_neg h0, hfd]
    | some doc0 =>
      have hdocs : (saveDocumentResult st r).docs
          = updateFirstDoc st.docs r.document_id (saveDocSetter r) := by
        unfold saveDocumentResult
        rw [if_neg h0, hfd]
        show (match doc0.user_id with
              | some uid =>
                { { st with docs := updateFirstDoc st.docs r.document_id (saveDocSetter r) } with
                  users := incUserCount
                    ({ st with
                        docs := updateFirstDoc st.docs r.document_id (saveDocSetter r) }).users
                    uid }
              | none =>
                { st with
                    docs := updateFirstDoc st.docs r.document_id (saveDocSetter r) }).docs
            = updateFirstDoc st.docs r.document_id (saveDocSetter r)
        cases doc0.user_id <;> rfl
      have hfd2 : (updateFirstDoc st.docs r.document_id (saveDocSetter r)).find?
            (fun d => d.id == j)
          = if j = r.document_id
            then (st.docs.find? (fun d => d.id == r.document_id)).map (saveDocSetter r)
            else st.docs.find? (fun d => d.id == j) :=
        find?_updateFirstDoc st.docs r.document_id j (saveDocSetter r) (fun _ => rfl)
      have hfd' : st.docs.find? (fun d => d.id == r.document_id) = some doc0 := hfd
      by_cases hj : j = r.document_id
      · refine Or.inr ⟨hj, ?_, ?_⟩
        · show (((saveDocumentResult st r).docs.find? (fun d => d.id == j)).map
              (fun d => d.processing_status)) = some "completed"
          rw [hdocs, hfd2, if_pos hj, hfd']
          rfl
        · show ((st.docs.find? (fun d => d.id == j)).map
              (fun d => d.processing_status)).isSome = true
          rw [hj, hfd']
          rfl
      · refine Or.inl ?_
        show (((saveDocumentResult st r).docs.find? (fun d => d.id == j)).map
              (fun d => d.processing_status))
            = ((st.docs.find? (fun d => d.id == j)).map (fun d => d.processing_status))
        rw [hdocs, hfd2, if_neg hj]

/-- `_save_synthesis` only touches the synthesis table. -/
theorem statusOf_saveSynthesis (st : DbState) (sfields : List (String × Json)) (pid j : Nat) :
    statusOf (saveSynthesis st sfields pid) j = statusOf st j := by
  unfold saveSynthesis
  cases findSummary st pid <;> rfl

/-- The last element of a nonempty list, `getLastD` form. -/
theorem getLast?_cons_eq_getLastD (a : DbState) (l : List DbState) :
    (a :: l).getLast? = some (l.getLastD a) := by
  induction l generalizing a with
  | nil => rfl
  | cons b t ih => rw [List.getLast?_cons_cons, ih, List.getLastD_cons]

/-- The incremental-save phase only moves statuses forward, provided every
document it writes currently sits at `processing` or `completed`. -/
theorem chain_runSaves (rs : List ResultEntry) :
    ∀ st : DbState,
      (∀ r ∈ rs, ∀ s, statusOf st r.document_id = some s →
        s = "processing" ∨ s = "completed") →
      List.Chain' forwardState (st :: runSaves st rs) := by
  induction rs with
  | nil =>
    intro st _
    simp [runSaves]
  | cons r rs ih =>
    intro st hinv
    rw [show runSaves st (r :: rs)
        = saveDocumentResult st r :: runSaves (saveDocumentResult st r) rs from rfl,
      List.chain'_cons]
    constructor
    · intro j
      rcases statusOf_saveDocumentResult st r j with heq | ⟨hj, hc, hsome⟩
      · rw [heq]
        exact forwardStatus_refl _
      · cases ho : statusOf st j with
        | none => rw [ho] at hsome; cases hsome
        | some s =>
          rw [hc]
          have hs : s = "processing" ∨ s = "completed" := by
            apply hinv r (List.mem_cons_self r rs) s
            rw [← hj]
            exact ho
          show forwardStep s "completed"
          rcases hs with hs | hs
          · exact Or.inr (Or.inr ⟨hs, Or.inl rfl⟩)
          · exact Or.inl (hs.trans rfl)
    · apply ih
      intro r' hr' s hs
      rcases statusOf_saveDocumentResult st r r'.document_id with heq | ⟨_, hc, _⟩
      · rw [heq] at hs
        exact hinv r' (List.mem_cons_of_mem r hr') s hs
      · rw [hc] at hs
        cases hs
        exact Or.inr rfl

/-- Every synthesis-request entry's document id comes from the member list. -/
theorem buildResults_mem_ids (env : BulkEnv) :
    ∀ (i : Nat) (l : List (Upload × Prepared)) (r : ResultEntry),
      r ∈ buildResults env i l → ∃ p ∈ l, r.document_id = p.1.document_id := by
  intro i l
  induction l generalizing i with
  | nil =>
    intro r hr
    cases hr
  | cons p rest ih =>
    intro r hr
    cases p with
    | mk u prep =>
      rcases List.mem_cons.mp hr with h | h
      · refine ⟨(u, prep), List.mem_cons_self _ _, ?_⟩
        rw [h]
        rfl
      · obtain ⟨q, hq, hid⟩ := ih (i + 1) r h
        exact ⟨q, List.mem_cons_of_mem _ hq, hid⟩

/-- C2 amended: in every run whose coordinator-level except handler does
not fire, all member documents starting `pending`, the per-document status
only moves forward (pending → processing → completed) at every commit; the
batch-fatal handler is the one operation that can move a `completed`
document to `failed`. -/
theorem statuses_move_forward_without_batch_failure (env : BulkEnv) (pid : Nat)
    (uploads : List Upload) (st0 : DbState)
    (hpend : ∀ u ∈ uploads, statusOf st0 u.document_id = some "pending" ∨
        statusOf st0 u.document_id = none)
    (hok : (process_bulk_upload env pid uploads st0).batchError = none) :
    List.Chain' forwardState (process_bulk_upload env pid uploads st0).trace := by
  cases hdl : downloadFiles env.download uploads with
  | error e =>
    exfalso
    have hbe : (process_bulk_upload env pid uploads st0).batchError = some e := by
      unfold process_bulk_upload
      rw [hdl]
    rw [hok] at hbe
    cases hbe
  | ok files =>
    cases hce : env.synthesisCommitError with
    | some e =>
      exfalso
      have hbe : (process_bulk_upload env pid uploads st0).batchError = some e := by
        simp only [process_bulk_upload, hdl, hce]
      rw [hok] at hbe
      cases hbe
    | none =>
      cases hsf : synthesisFields (synthesize_results
          (buildResults env 0 (uploads.zip (files.map (prepare_pdf env.pdfParse))))
          env.synthesisResp) with
      | none =>
        exfalso
        have hbe : (process_bulk_upload env pid uploads st0).batchError
            = some "synthesis result is not a JSON object" := by
          simp only [process_bulk_upload, hdl, hce, hsf]
        rw [hok] at hbe
        cases hbe
      | some sfields =>
        have htr : (process_bulk_upload env pid uploads st0).trace
            = st0 :: markProcessing uploads st0 ::
                (runSaves (markProcessing uploads st0)
                    (buildResults env 0 (uploads.zip (files.map (prepare_pdf env.pdfParse))))
                  ++ [saveSynthesis
                      ((runSaves (markProcessing uploads st0)
                          (buildResults env 0
                            (uploads.zip (files.map (prepare_pdf env.pdfParse))))).getLastD
                        (markProcessing uploads st0))
                      sfields pid]) := by
          simp only [process_bulk_upload, hdl, hce, hsf]
          rfl
        rw [htr, ← List.cons_append, ← List.cons_append]
        refine List.chain'_append.mpr ⟨?_, List.chain'_singleton _, ?_⟩
        · refine List.chain'_cons.mpr ⟨?_, ?_⟩
          · intro j
            rw [statusOf_markProcessing]
            by_cases hany : uploads.any (fun x : Upload => x.document_id == j) = true
            · rw [if_pos hany]
              obtain ⟨u, hu, hbeq⟩ := List.any_eq_true.mp hany
              have hj : u.document_id = j := by simpa using hbeq
              rcases hpend u hu with hp | hp
              · rw [hj] at hp
                rw [hp]
                exact Or.inr (Or.inl ⟨rfl, Or.inl rfl⟩)
              · rw [hj] at hp
                rw [hp]
                trivial
            · rw [if_neg hany]
              exact forwardStatus_refl _
          · apply chain_runSaves
            intro r hr s hs
            obtain ⟨p, hp, hid⟩ := buildResults_mem_ids env 0 _ r hr
            have hu : p.1 ∈ uploads := by
              cases p with
              | mk u prep => exact (List.of_mem_zip hp).1
            have hany : uploads.any (fun x : Upload => x.document_id == r.document_id) = true :=
              List.any_eq_true.mpr ⟨p.1, hu, by simp [hid]⟩
            rw [statusOf_markProcessing, if_pos hany] at hs
            rcases Option.map_eq_some'.mp hs with ⟨x, _, hval⟩
            exact Or.inl hval.symm
        · intro x hx y hy
          rw [List.getLast?_cons_cons, getLast?_cons_eq_getLastD] at hx
          simp only [List.head?_cons, Option.mem_def, Option.some.injEq] at hx hy
          subst hx
          subst hy
          intro j
          rw [statusOf_saveSynthesis]
          exact forwardStatus_refl _

/-- Environment for the C2 scenario: every per-document step succeeds, then
the record store raises at the synthesis commit. -/
def c2Env : BulkEnv :=
  { download := fun _ => .ok [1],
    pdfParse := fun _ => .pages ["page text"],
    classifyResp := fun _ => .ok "pv_ag",
    extractResp := fun _ => .ok "\x7b\"summary\": \"ok\"\x7d",
    synthesisResp := .ok "\x7b\"summary\": \"synth\"\x7d",
    synthesisCommitError := some "db connection lost" }

/-- One-document batch for the C2 scenario. -/
def c2Uploads : List Upload := [⟨1, "k1", "a.pdf"⟩]

/-- Store holding the single pending member document of case 7. -/
def c2St0 : DbState :=
  { docs := [mkDocRow 1 7 "a.pdf" "pending" false], summaries := [], users := [] }

/-- C2 counterexample: a run whose per-document work succeeds and whose
synthesis-save commit then raises shows document 1 at `completed` after its
incremental save (third commit state) and at `failed` after the
coordinator-level failure handler (fourth state): the listed pipeline
operations do move a document backwards from `completed`. -/
theorem c2_completed_to_failed_counterexample :
    statusOf ((process_bulk_upload c2Env 7 c2Uploads c2St0).trace.getD 2 c2St0) 1
      = some "completed" ∧
    statusOf ((process_bulk_upload c2Env 7 c2Uploads c2St0).trace.getD 3 c2St0) 1
      = some "failed" ∧
    (process_bulk_upload c2Env 7 c2Uploads c2St0).trace.length = 4 ∧
    ¬ forwardStep "completed" "failed" :=
  ⟨rfl, rfl, rfl, by rintro (h | ⟨h, _⟩ | ⟨h, _⟩) <;> exact absurd h (by decide)⟩

/-- Witness for the amended C2 at a concrete fully-successful run. -/
theorem statuses_move_forward_witness :
    List.Chain' forwardState (process_bulk_upload c3Env 7 c3Uploads c3St0).trace :=
  statuses_move_forward_without_batch_failure c3Env 7 c3Uploads c3St0 (by decide) rfl
